import Mathlib

/-!
Verification of the response-decision and prompt-assembly pipeline of the
oobabot Discord bot (`src/oobabot/discord_bot.py`), as a shallow embedding.

Strings are modelled as Lean `String` (lists of characters); Python integers
as `Nat`/`Int`; Python `None`-able values as `Option`; the floating-point
times and probabilities of the unsolicited-response policy as rationals.
The asynchronous history iterator is modelled as a list supplied
newest-first, and the per-channel dictionaries as functions
`Nat → Option _` updated pointwise, which matches single-key dictionary
get/set behaviour of the source.
-/

namespace Oobabot

/-! ## Sanitizer

`FORBIDDEN_CHARACTERS = r"[\n\r\t]"`; `sanitize_string` substitutes a single
space for every match of that single-character class.  -/

/-- One character of the class `[\n\r\t]` of `FORBIDDEN_CHARACTERS`. -/
def forbidden_char (c : Char) : Bool :=
  c = '\n' || c = '\r' || c = '\t'

/-- The substitution applied to each character by
`FORBIDDEN_CHARACTERS_PATTERN.sub(" ", raw_string)`: a forbidden character
becomes one space, all other characters are unchanged. -/
def replace_forbidden (c : Char) : Char :=
  if forbidden_char c then ' ' else c

/-- `sanitize_string(raw_string)`: regex substitution of each character of
the class `[\n\r\t]` by a single space. -/
def sanitize_string (s : String) : String :=
  String.mk (s.data.map replace_forbidden)

/-- Python `str.strip()` with no argument: remove leading and trailing
whitespace. -/
def py_strip (s : String) : String :=
  String.mk (((s.data.dropWhile Char.isWhitespace).reverse.dropWhile
    Char.isWhitespace).reverse)

/-- Python `str.lower()` (ASCII case folding, as used on the bot's ASCII
message text). -/
def py_lower (s : String) : String :=
  String.mk (s.data.map Char.toLower)

/-! ## RepetitionTracker -/

/-- The data of a message sent by the bot that the tracker records:
its text content and its platform-assigned message id. -/
structure BotMessage where
  content : String
  id : Nat
deriving DecidableEq, Repr

/-- `RepetitionTracker`: the configured repetition threshold together with
the per-channel map `channel_id -> (last_message, throttle_message_id,
repetition_count)`. A missing channel is `none`, matching a missing
dictionary key. -/
structure RepetitionTracker where
  repetition_threshold : Nat
  store : Nat → Option (String × Nat × Nat)

/-- A fresh tracker: `repetition_count = {}`. -/
def fresh_tracker (threshold : Nat) : RepetitionTracker :=
  ⟨threshold, fun _ => none⟩

/-- `make_canonical(content)`: `content.strip().lower()`. -/
def make_canonical (content : String) : String :=
  py_lower (py_strip content)

/-- `should_throttle(repetition_count)`:
`repetition_count >= self.repetition_threshold`. -/
def should_throttle (t : RepetitionTracker) (repetition_count : Nat) : Bool :=
  t.repetition_threshold ≤ repetition_count

/-- The entry the source reads for a channel:
`self.repetition_count.get(channel_id, ("", 0, 0))`. -/
def conv_entry (t : RepetitionTracker) (channel_id : Nat) : String × Nat × Nat :=
  (t.store channel_id).getD ("", 0, 0)

/-- `get_throttle_message_id(channel_id)`: reads the stored triple with
default `(None, None, None)` and returns its middle component, hence `none`
exactly when the channel has never been recorded. -/
def get_throttle_message_id (t : RepetitionTracker) (channel_id : Nat) :
    Option Nat :=
  match t.store channel_id with
  | none => none
  | some (_, throttle_message_id, _) => some throttle_message_id

/-- `log_message(channel_id, response_message)`: canonicalize the content,
read the entry with default `("", 0, 0)`, increment the counter on a match
and reset it to zero otherwise, overwrite the throttle id with the new
message id when `should_throttle` fires, and store the canonical text, the
(possibly new) throttle id and the new counter. -/
def log_message (t : RepetitionTracker) (channel_id : Nat)
    (response_message : BotMessage) : RepetitionTracker :=
  let sentence := make_canonical response_message.content
  let entry := conv_entry t channel_id
  let last_message := entry.1
  let throttle_message_id := entry.2.1
  let repetition_count :=
    if last_message = sentence then entry.2.2 + 1 else 0
  let throttle_message_id :=
    if should_throttle t repetition_count then response_message.id
    else throttle_message_id
  { t with
    store := fun c =>
      if c = channel_id then some (sentence, throttle_message_id, repetition_count)
      else t.store c }

/-- Feeding a list of bot messages for one channel through
`log_message`, oldest first. -/
def feed_messages (t : RepetitionTracker) (channel_id : Nat)
    (msgs : List BotMessage) : RepetitionTracker :=
  msgs.foldl (fun acc m => log_message acc channel_id m) t

/-! ## Sanitizer lemmas -/

theorem forbidden_replace_forbidden (c : Char) :
    forbidden_char (replace_forbidden c) = false := by
  by_cases h : forbidden_char c
  · simp [replace_forbidden, h]
    decide
  · simp [replace_forbidden, h]

theorem replace_forbidden_idem (c : Char) :
    replace_forbidden (replace_forbidden c) = replace_forbidden c := by
  by_cases h : forbidden_char c
  · simp [replace_forbidden, h]
  · simp [replace_forbidden, h]

/-- C7: `sanitize_string` maps each character of its input pointwise,
sending each newline, carriage return and tab to exactly one space and
leaving every other character unchanged; its output contains no character
of the forbidden class; and it is idempotent. -/
theorem C7_sanitize_string (s : String) :
    (∀ i : Nat,
      (sanitize_string s).data[i]? = (s.data[i]?).map replace_forbidden) ∧
    (sanitize_string s).data.all (fun c => !forbidden_char c) = true ∧
    sanitize_string (sanitize_string s) = sanitize_string s := by
  refine ⟨fun i => ?_, ?_, ?_⟩
  · simp [sanitize_string]
  · simp only [sanitize_string, List.all_map, List.all_eq_true]
    intro c _
    simp [Function.comp, forbidden_replace_forbidden]
  · simp [sanitize_string, List.map_map]
    congr 1
    exact List.map_congr_left fun c _ => replace_forbidden_idem c

/-! ## RepetitionTracker theorems -/

theorem log_message_conv_entry (t : RepetitionTracker) (channel_id : Nat)
    (m : BotMessage) :
    conv_entry (log_message t channel_id m) channel_id =
      (make_canonical m.content,
       if should_throttle t
           (if (conv_entry t channel_id).1 = make_canonical m.content
            then (conv_entry t channel_id).2.2 + 1 else 0)
       then m.id else (conv_entry t channel_id).2.1,
       if (conv_entry t channel_id).1 = make_canonical m.content
       then (conv_entry t channel_id).2.2 + 1 else 0) := by
  simp [conv_entry, log_message]

theorem log_message_threshold (t : RepetitionTracker) (channel_id : Nat)
    (m : BotMessage) :
    (log_message t channel_id m).repetition_threshold =
      t.repetition_threshold := rfl

theorem log_message_store_self (t : RepetitionTracker) (channel_id : Nat)
    (m : BotMessage) :
    (log_message t channel_id m).store channel_id =
      some (make_canonical m.content,
       if should_throttle t
           (if (conv_entry t channel_id).1 = make_canonical m.content
            then (conv_entry t channel_id).2.2 + 1 else 0)
       then m.id else (conv_entry t channel_id).2.1,
       if (conv_entry t channel_id).1 = make_canonical m.content
       then (conv_entry t channel_id).2.2 + 1 else 0) := by
  simp [log_message]

/-- Feeding a nonempty run of messages with one common canonical text `c`
through the tracker leaves a stored entry whose text is `c`, whose counter
is determined by the starting entry, and whose throttle id is the last
message's id whenever the final counter reaches the threshold. -/
theorem feed_same_canonical (c : String) (channel_id : Nat) :
    ∀ (msgs : List BotMessage) (t : RepetitionTracker) (mlast : BotMessage),
      msgs ≠ [] →
      (∀ m ∈ msgs, make_canonical m.content = c) →
      msgs.getLast? = some mlast →
      ∃ b n,
        (feed_messages t channel_id msgs).store channel_id = some (c, b, n) ∧
        (feed_messages t channel_id msgs).repetition_threshold =
          t.repetition_threshold ∧
        n = (if (conv_entry t channel_id).1 = c
             then (conv_entry t channel_id).2.2 + msgs.length
             else msgs.length - 1) ∧
        (t.repetition_threshold ≤ n → b = mlast.id) := by
  intro msgs
  induction msgs with
  | nil => intro t mlast h; exact absurd rfl h
  | cons m rest ih =>
    intro t mlast _ hcanon hlast
    have hm : make_canonical m.content = c := hcanon m (by simp)
    cases rest with
    | nil =>
      have hml : m = mlast := by simpa using hlast
      subst hml
      refine ⟨if should_throttle t (if (conv_entry t channel_id).1 = c
                 then (conv_entry t channel_id).2.2 + 1 else 0)
              then m.id else (conv_entry t channel_id).2.1,
              if (conv_entry t channel_id).1 = c
              then (conv_entry t channel_id).2.2 + 1 else 0,
              ?_, rfl, ?_, ?_⟩
      · show (log_message t channel_id m).store channel_id = _
        rw [log_message_store_self, hm]
      · by_cases hp : (conv_entry t channel_id).1 = c <;> simp [hp]
      · intro hth
        have hb : should_throttle t (if (conv_entry t channel_id).1 = c
            then (conv_entry t channel_id).2.2 + 1 else 0) = true := by
          simpa [should_throttle] using hth
        simp [hb]
    | cons r rs =>
      have hlast2 : (r :: rs).getLast? = some mlast := by
        rw [← hlast, List.getLast?_cons_cons]
      obtain ⟨b, n, hstore, hthr, hn, himp⟩ :=
        ih (log_message t channel_id m) mlast (by simp)
          (fun x hx => hcanon x (List.mem_cons_of_mem m hx)) hlast2
      have hstep : feed_messages t channel_id (m :: r :: rs) =
          feed_messages (log_message t channel_id m) channel_id (r :: rs) := rfl
      have hc2 := log_message_conv_entry t channel_id m
      rw [hm] at hc2
      refine ⟨b, n, ?_, ?_, ?_, ?_⟩
      · rw [hstep]; exact hstore
      · rw [hstep, hthr, log_message_threshold]
      · rw [hn]
        by_cases hp : (conv_entry t channel_id).1 = c <;>
          simp [hc2, hp] <;> omega
      · intro hth
        exact himp (by rwa [log_message_threshold])

/-- C1: one `log_message` call canonicalizes the text, increments the
counter on a canonical match and resets it otherwise, overwrites the
throttle boundary with the current message id exactly when the new counter
reaches the threshold, and always stores the new canonical text; and
consequently feeding threshold+1 messages of one canonical text into a
fresh conversation leaves the throttle boundary at the last message's id. -/
theorem C1_repetition_tracking (threshold channel_id : Nat) (c : String)
    (msgs : List BotMessage) (mlast : BotMessage)
    (hlen : msgs.length = threshold + 1)
    (hcanon : ∀ m ∈ msgs, make_canonical m.content = c)
    (hlast : msgs.getLast? = some mlast) :
    (∀ (t : RepetitionTracker) (m : BotMessage),
      conv_entry (log_message t channel_id m) channel_id =
        (make_canonical m.content,
         if should_throttle t
             (if (conv_entry t channel_id).1 = make_canonical m.content
              then (conv_entry t channel_id).2.2 + 1 else 0)
         then m.id else (conv_entry t channel_id).2.1,
         if (conv_entry t channel_id).1 = make_canonical m.content
         then (conv_entry t channel_id).2.2 + 1 else 0)) ∧
    get_throttle_message_id
      (feed_messages (fresh_tracker threshold) channel_id msgs) channel_id =
      some mlast.id := by
  refine ⟨fun t m => log_message_conv_entry t channel_id m, ?_⟩
  have hne : msgs ≠ [] := by
    intro h
    rw [h] at hlen
    simp at hlen
  obtain ⟨b, n, hstore, _, hn, himp⟩ :=
    feed_same_canonical c channel_id msgs (fresh_tracker threshold) mlast
      hne hcanon hlast
  have hentry : conv_entry (fresh_tracker threshold) channel_id = ("", 0, 0) := rfl
  have hb : b = mlast.id := by
    apply himp
    rw [hn, hentry, hlen]
    by_cases hc : ("" : String) = c <;> simp [fresh_tracker, hc] <;> omega
  rw [get_throttle_message_id, hstore, hb]

theorem C1_repetition_tracking_witness :
    ([⟨"Ok.", 10⟩, ⟨"ok. ", 11⟩] : List BotMessage).length = 1 + 1 ∧
    get_throttle_message_id
      (feed_messages (fresh_tracker 1) 3 [⟨"Ok.", 10⟩, ⟨"ok. ", 11⟩]) 3 =
      some 11 := by
  refine ⟨rfl, ?_⟩
  have h := C1_repetition_tracking 1 3 "ok." [⟨"Ok.", 10⟩, ⟨"ok. ", 11⟩]
    ⟨"ok. ", 11⟩ (by decide) (by decide) (by decide)
  exact h.2

/-- C4: with a threshold of at least one, logging a message whose canonical
text differs from the stored canonical text resets the counter to zero and
leaves the stored throttle boundary unchanged; and for any logged message
the boundary is either overwritten with that message's id (exactly when the
new counter reaches the threshold) or kept — it is never cleared. -/
theorem C4_boundary_persistence (t : RepetitionTracker) (channel_id : Nat)
    (m : BotMessage)
    (hthr : 1 ≤ t.repetition_threshold)
    (hdiff : (conv_entry t channel_id).1 ≠ make_canonical m.content) :
    conv_entry (log_message t channel_id m) channel_id =
      (make_canonical m.content, (conv_entry t channel_id).2.1, 0) ∧
    ∀ m2 : BotMessage,
      (conv_entry (log_message t channel_id m2) channel_id).2.1 =
        (if should_throttle t
            (if (conv_entry t channel_id).1 = make_canonical m2.content
             then (conv_entry t channel_id).2.2 + 1 else 0)
         then m2.id else (conv_entry t channel_id).2.1) := by
  constructor
  · rw [log_message_conv_entry]
    have hth0 : should_throttle t 0 = false := by
      simp [should_throttle]
      omega
    simp [hdiff, hth0]
  · intro m2
    rw [log_message_conv_entry]

theorem C4_boundary_persistence_witness :
    1 ≤ (feed_messages (fresh_tracker 1) 1
          [⟨"ok.", 1⟩, ⟨"ok.", 2⟩]).repetition_threshold ∧
    (conv_entry (feed_messages (fresh_tracker 1) 1
          [⟨"ok.", 1⟩, ⟨"ok.", 2⟩]) 1).1 ≠ make_canonical "bye" ∧
    conv_entry (log_message (feed_messages (fresh_tracker 1) 1
          [⟨"ok.", 1⟩, ⟨"ok.", 2⟩]) 1 ⟨"bye", 3⟩) 1 =
      ("bye",
       (conv_entry (feed_messages (fresh_tracker 1) 1
          [⟨"ok.", 1⟩, ⟨"ok.", 2⟩]) 1).2.1, 0) := by
  refine ⟨by decide, by decide, ?_⟩
  exact (C4_boundary_persistence _ 1 ⟨"bye", 3⟩ (by decide) (by decide)).1

/-- C9 counterexample: after one non-repeating bot message has been logged
in a fresh conversation, `get_throttle_message_id` does not return `none`
(it returns the stored sentinel value 0). -/
theorem C9_counterexample :
    get_throttle_message_id (log_message (fresh_tracker 1) 7 ⟨"hi", 5⟩) 7 ≠
      none := by decide

/-- Whether the loop detector fires at some call while feeding `msgs`
through `log_message`: at each call, `should_throttle` applied to the
repetition count that call computes. -/
def feed_triggers (channel_id : Nat) :
    RepetitionTracker → List BotMessage → Bool
  | _, [] => false
  | t, m :: rest =>
    should_throttle t
      (if (conv_entry t channel_id).1 = make_canonical m.content
       then (conv_entry t channel_id).2.2 + 1 else 0) ||
    feed_triggers channel_id (log_message t channel_id m) rest

/-- Invariant: starting from any tracker whose stored boundary slot for the
channel is 0 (as in a fresh conversation), a nonempty feed during which the
detector never fires ends with the boundary slot stored and still 0, so the
getter returns `some 0`. -/
theorem feed_no_trigger_boundary (channel_id : Nat) :
    ∀ (msgs : List BotMessage) (t : RepetitionTracker),
      (conv_entry t channel_id).2.1 = 0 →
      feed_triggers channel_id t msgs = false →
      msgs ≠ [] →
      get_throttle_message_id (feed_messages t channel_id msgs) channel_id =
        some 0 := by
  intro msgs
  induction msgs with
  | nil => intro t _ _ h; exact absurd rfl h
  | cons m rest ih =>
    intro t hb htr _
    rw [feed_triggers, Bool.or_eq_false_iff] at htr
    obtain ⟨h1, h2⟩ := htr
    cases rest with
    | nil =>
      show get_throttle_message_id (log_message t channel_id m) channel_id =
        some 0
      rw [get_throttle_message_id, log_message_store_self]
      simp [h1, hb]
    | cons r rs =>
      have hbound :
          (conv_entry (log_message t channel_id m) channel_id).2.1 = 0 := by
        rw [log_message_conv_entry]
        simp [h1, hb]
      exact ih (log_message t channel_id m) hbound h2 (by simp)

/-- C9 (amended): `get_throttle_message_id` returns `none` when no bot
message has ever been recorded for the conversation; for every recorded
history — any number of messages — during which the loop detector has never
triggered, it returns `some 0`: the initial sentinel, which downstream
truthiness checks treat as the absence of a boundary, rather than `none`. -/
theorem C9_get_throttle_default (threshold channel_id : Nat)
    (msgs : List BotMessage) (hne : msgs ≠ [])
    (hno : feed_triggers channel_id (fresh_tracker threshold) msgs = false) :
    get_throttle_message_id (fresh_tracker threshold) channel_id = none ∧
    get_throttle_message_id
      (feed_messages (fresh_tracker threshold) channel_id msgs) channel_id =
      some 0 :=
  ⟨rfl, feed_no_trigger_boundary channel_id msgs (fresh_tracker threshold)
    rfl hno hne⟩

theorem C9_get_throttle_default_witness :
    ([⟨"ok.", 5⟩, ⟨"ok.", 6⟩] : List BotMessage) ≠ [] ∧
    feed_triggers 7 (fresh_tracker 2) [⟨"ok.", 5⟩, ⟨"ok.", 6⟩] = false ∧
    get_throttle_message_id (fresh_tracker 2) 7 = none ∧
    get_throttle_message_id
      (feed_messages (fresh_tracker 2) 7 [⟨"ok.", 5⟩, ⟨"ok.", 6⟩]) 7 =
      some 0 := by
  refine ⟨by decide, by decide, ?_, ?_⟩
  · exact (C9_get_throttle_default 2 7 [⟨"ok.", 5⟩, ⟨"ok.", 6⟩]
      (by decide) (by decide)).1
  · exact (C9_get_throttle_default 2 7 [⟨"ok.", 5⟩, ⟨"ok.", 6⟩]
      (by decide) (by decide)).2

/-- Modelled from the spec: the default repetition threshold constant
(`Settings.DISCORD_REPETITION_THRESHOLD`, used as the default of
`RepetitionTracker.__init__`) is absent from the `settings.py` of this
repository snapshot; the spec fixes the default to 1 ("default 1, i.e.,
two identical consecutive messages"). -/
def DISCORD_REPETITION_THRESHOLD : Nat := 1

/-- C10: in a fresh conversation the stored previous canonical text
defaults to the empty string, so a first bot message whose content
canonicalizes to the empty string counts as a repetition (counter 1, not
0), and with the default threshold of 1 the throttle boundary becomes that
first message's id. -/
theorem C10_first_empty_message (channel_id : Nat) (m : BotMessage)
    (hempty : make_canonical m.content = "") :
    (conv_entry (log_message (fresh_tracker DISCORD_REPETITION_THRESHOLD)
        channel_id m) channel_id).2.2 = 1 ∧
    get_throttle_message_id
      (log_message (fresh_tracker DISCORD_REPETITION_THRESHOLD) channel_id m)
      channel_id = some m.id := by
  have hentry : conv_entry (fresh_tracker DISCORD_REPETITION_THRESHOLD)
      channel_id = ("", 0, 0) := rfl
  have hcond : (conv_entry (fresh_tracker DISCORD_REPETITION_THRESHOLD)
      channel_id).1 = make_canonical m.content := by
    rw [hentry, hempty]
  have hth1 : should_throttle (fresh_tracker DISCORD_REPETITION_THRESHOLD)
      1 = true := by decide
  constructor
  · rw [log_message_conv_entry]
    simp [hcond, hentry, hempty]
  · have hstore :=
      log_message_store_self (fresh_tracker DISCORD_REPETITION_THRESHOLD)
        channel_id m
    rw [get_throttle_message_id, hstore]
    simp [hcond, hentry, hempty, hth1]

theorem C10_first_empty_message_witness :
    make_canonical "   " = "" ∧
    get_throttle_message_id
      (log_message (fresh_tracker DISCORD_REPETITION_THRESHOLD) 9 ⟨"   ", 42⟩)
      9 = some 42 := by
  refine ⟨by decide, ?_⟩
  exact (C10_first_empty_message 9 ⟨"   ", 42⟩ (by decide)).2

/-! ## PromptGenerator: history assembly

`generate_history` consumes the channel history newest-first, renders each
usable message through the history-line template (an external
template-formatting collaborator, modelled as the function `render`), stops
at the throttle message or when a rendered line no longer fits the
remaining character budget, and emits the collected lines oldest-first with
no added separator. -/

/-- A raw Discord message as read from the history iterator: the fields
`generate_history` and `sanitize_message` consume. (The guild name feeds
only the unused `server` field and is not modelled.) -/
structure HistMsg where
  author_name : String
  author_id : Int
  content : String
  id : Nat
deriving DecidableEq, Repr

/-- The `author` and `message_text` fields produced by
`sanitize_message(raw_message)`. -/
structure CleanMessage where
  author : String
  message_text : String
deriving DecidableEq, Repr

/-- `sanitize_message`: sanitize the author name, sanitize and trim the
content. -/
def sanitize_message (m : HistMsg) : CleanMessage :=
  ⟨sanitize_string m.author_name, py_strip (sanitize_string m.content)⟩

/-- Python substring test `needle in hay`. -/
def contains_sub (needle : List Char) : List Char → Bool
  | [] => needle.isEmpty
  | c :: rest => needle.isPrefixOf (c :: rest) || contains_sub needle rest

/-- The diagnostic marker of self-authored image-request log lines, skipped
by `generate_history`. -/
def image_marker : String := "tried to make an image with the prompt"

/-- The loop guard `if stop_before_message_id and raw_message.id ==
stop_before_message_id`, including Python truthiness: a missing or zero
`stop_before_message_id` never stops the scan. -/
def is_throttle_stop (stop : Option Nat) (mid : Nat) : Bool :=
  match stop with
  | none => false
  | some k => if k = 0 then false else decide (mid = k)

/-- The author name substituted into a history line: the canonical AI name
for self-authored messages, the sanitized author name otherwise. -/
def history_author (ai_name : String) (ai_user_id : Int) (m : HistMsg) :
    String :=
  if m.author_id = ai_user_id then ai_name else (sanitize_message m).author

/-- The newest-first loop body of `generate_history`: the list of rendered
lines in consumption order, tracking `prompt_len_remaining`. A throttle hit
or an over-budget line ends consumption; self-authored image-marker lines
and empty texts are skipped without consuming budget. -/
def history_lines (ai_name : String) (render : String → String → String)
    (ai_user_id : Int) (stop : Option Nat) :
    List HistMsg → Nat → List String
  | [], _ => []
  | m :: rest, remaining =>
    if is_throttle_stop stop m.id then []
    else if decide (m.author_id = ai_user_id) &&
        contains_sub image_marker.data (sanitize_message m).message_text.data then
      history_lines ai_name render ai_user_id stop rest remaining
    else if (sanitize_message m).message_text = "" then
      history_lines ai_name render ai_user_id stop rest remaining
    else if (render (history_author ai_name ai_user_id m)
        (sanitize_message m).message_text).length > remaining then []
    else
      render (history_author ai_name ai_user_id m)
          (sanitize_message m).message_text ::
        history_lines ai_name render ai_user_id stop rest
          (remaining - (render (history_author ai_name ai_user_id m)
            (sanitize_message m).message_text).length)

/-- `generate_history`: collect lines newest-first under the character
budget, then reverse and concatenate with no separator. -/
def generate_history (ai_name : String) (render : String → String → String)
    (ai_user_id : Int) (max_history_chars : Nat)
    (message_history : List HistMsg) (stop : Option Nat) : String :=
  String.join
    ((history_lines ai_name render ai_user_id stop message_history
        max_history_chars).reverse)

theorem history_lines_budget (ai_name : String)
    (render : String → String → String) (ai_user_id : Int)
    (stop : Option Nat) :
    ∀ (ms : List HistMsg) (remaining : Nat),
      ((history_lines ai_name render ai_user_id stop ms remaining).map
        String.length).sum ≤ remaining := by
  intro ms
  induction ms with
  | nil => intro remaining; simp [history_lines]
  | cons m rest ih =>
    intro remaining
    rw [history_lines]
    split
    · simp
    · split
      · exact ih remaining
      · split
        · exact ih remaining
        · split
          · simp
          · rename_i hlen
            simp only [List.map_cons, List.sum_cons]
            have h2 := ih (remaining -
              (render (history_author ai_name ai_user_id m)
                (sanitize_message m).message_text).length)
            omega

theorem history_lines_mem (ai_name : String)
    (render : String → String → String) (ai_user_id : Int)
    (stop : Option Nat) :
    ∀ (ms : List HistMsg) (remaining : Nat)
      (l : String), l ∈ history_lines ai_name render ai_user_id stop ms remaining →
      ∃ m ∈ ms, l = render (history_author ai_name ai_user_id m)
        (sanitize_message m).message_text := by
  intro ms
  induction ms with
  | nil => intro remaining l h; simp [history_lines] at h
  | cons m rest ih =>
    intro remaining l h
    rw [history_lines] at h
    split at h
    · simp at h
    · split at h
      · obtain ⟨x, hx, hl⟩ := ih remaining l h
        exact ⟨x, List.mem_cons_of_mem m hx, hl⟩
      · split at h
        · obtain ⟨x, hx, hl⟩ := ih remaining l h
          exact ⟨x, List.mem_cons_of_mem m hx, hl⟩
        · split at h
          · simp at h
          · rcases List.mem_cons.mp h with hl | hl
            · exact ⟨m, by simp, hl⟩
            · obtain ⟨x, hx, hl2⟩ := ih _ l hl
              exact ⟨x, List.mem_cons_of_mem m hx, hl2⟩

theorem join_length (ls : List String) :
    (String.join ls).length = (ls.map String.length).sum := by
  show (String.join ls).data.length = _
  rw [String.data_join]
  rw [List.length_flatten, List.map_map]
  rfl

/-- C2: the assembled history string never exceeds the character budget; it
is the concatenation, oldest-first (the reverse of newest-first consumption
order) and with no added separator, of the collected lines; and every
collected line is the complete rendering of some history message — an
over-budget line is never partially included. -/
theorem C2_history_budget (ai_name : String)
    (render : String → String → String) (ai_user_id : Int)
    (stop : Option Nat) (message_history : List HistMsg)
    (max_history_chars : Nat) :
    (generate_history ai_name render ai_user_id max_history_chars
      message_history stop).length ≤ max_history_chars ∧
    generate_history ai_name render ai_user_id max_history_chars
      message_history stop =
      String.join ((history_lines ai_name render ai_user_id stop
        message_history max_history_chars).reverse) ∧
    ∀ l ∈ history_lines ai_name render ai_user_id stop message_history
        max_history_chars,
      ∃ m ∈ message_history,
        l = render (history_author ai_name ai_user_id m)
          (sanitize_message m).message_text := by
  refine ⟨?_, rfl, fun l hl =>
    history_lines_mem ai_name render ai_user_id stop message_history
      max_history_chars l hl⟩
  rw [generate_history, join_length, List.map_reverse, List.sum_reverse]
  exact history_lines_budget ai_name render ai_user_id stop message_history
    max_history_chars

theorem C2_history_budget_witness :
    (generate_history "ai" (fun a t => a ++ ": " ++ t ++ "\n") 1 12
      [⟨"bob", 2, "hello", 10⟩] none).length ≤ 12 ∧
    ∃ m ∈ ([⟨"bob", 2, "hello", 10⟩] : List HistMsg),
      ("bob: hello\n" : String) = (fun a t => a ++ ": " ++ t ++ "\n")
        (history_author "ai" 1 m) (sanitize_message m).message_text :=
  ⟨(C2_history_budget "ai" (fun a t => a ++ ": " ++ t ++ "\n") 1 none
      [⟨"bob", 2, "hello", 10⟩] 12).1,
   (C2_history_budget "ai" (fun a t => a ++ ": " ++ t ++ "\n") 1 none
      [⟨"bob", 2, "hello", 10⟩] 12).2.2 "bob: hello\n" (by decide)⟩

theorem history_lines_stop_split (ai_name : String)
    (render : String → String → String) (ai_user_id : Int) (k : Nat)
    (mk : HistMsg) (post : List HistMsg)
    (hk : k ≠ 0) (hmk : mk.id = k) :
    ∀ (pre : List HistMsg) (remaining : Nat),
      (∀ m ∈ pre, m.id ≠ k) →
      history_lines ai_name render ai_user_id (some k) (pre ++ mk :: post)
        remaining =
      history_lines ai_name render ai_user_id none pre remaining := by
  intro pre
  induction pre with
  | nil =>
    intro remaining _
    have hstop : is_throttle_stop (some k) mk.id = true := by
      simp [is_throttle_stop, hk, hmk]
    simp [history_lines, hstop]
  | cons m pre ih =>
    intro remaining hpre
    have hm : m.id ≠ k := hpre m (by simp)
    have hstop : is_throttle_stop (some k) m.id = false := by
      simp [is_throttle_stop, hk, hm]
    have hstop2 : is_throttle_stop none m.id = false := rfl
    have ihall : ∀ r : Nat,
        history_lines ai_name render ai_user_id (some k)
          (pre ++ mk :: post) r =
        history_lines ai_name render ai_user_id none pre r :=
      fun r => ih r (fun x hx => hpre x (List.mem_cons_of_mem m hx))
    simp only [List.cons_append]
    rw [history_lines, history_lines]
    simp only [hstop, hstop2, Bool.false_eq_true, if_false, ihall]

/-- C3 (amended): for every non-null, nonzero throttle boundary id `k`, the
newest-first scan stops at the message with id `k`, exclusive: the
assembled history over `pre ++ [m_k] ++ post` (with no id-`k` message in
`pre`) equals the history assembled from `pre` alone, so neither the
boundary message nor anything older contributes. -/
theorem C3_throttle_exclusion (ai_name : String)
    (render : String → String → String) (ai_user_id : Int)
    (max_history_chars : Nat) (k : Nat) (pre post : List HistMsg)
    (mk : HistMsg) (hk : k ≠ 0) (hmk : mk.id = k)
    (hpre : ∀ m ∈ pre, m.id ≠ k) :
    generate_history ai_name render ai_user_id max_history_chars
      (pre ++ mk :: post) (some k) =
    generate_history ai_name render ai_user_id max_history_chars pre none := by
  rw [generate_history, generate_history,
    history_lines_stop_split ai_name render ai_user_id k mk post hk hmk pre
      max_history_chars hpre]

theorem C3_throttle_exclusion_witness :
    (1 : Nat) ≠ 0 ∧
    generate_history "ai" (fun a t => a ++ ": " ++ t) 1 100
      ([⟨"carol", 3, "new", 7⟩] ++ ⟨"alice", 2, "old", 1⟩ ::
        [⟨"dave", 4, "older", 5⟩]) (some 1) =
    generate_history "ai" (fun a t => a ++ ": " ++ t) 1 100
      [⟨"carol", 3, "new", 7⟩] none :=
  ⟨by decide,
   C3_throttle_exclusion "ai" (fun a t => a ++ ": " ++ t) 1 100 1
     [⟨"carol", 3, "new", 7⟩] [⟨"dave", 4, "older", 5⟩]
     ⟨"alice", 2, "old", 1⟩ (by decide) (by decide) (by decide)⟩

/-- C3 counterexample: with a throttle boundary id of 0 — non-null, and
reachable since the tracker's boundary slot starts at 0 — the truthiness
guard skips the stop check, so the message with id 0 itself is included in
the assembled history, contradicting the claim as stated. -/
theorem C3_counterexample :
    generate_history "ai" (fun a t => a ++ ": " ++ t) 1 100
      [⟨"alice", 2, "hi", 0⟩] (some 0) = "alice: hi" ∧
    ("alice: hi" : String) ≠ "" := by
  constructor
  · rfl
  · decide

/-! ## ResponseDecisionPolicy

`should_send_direct_response`, `should_send_unsolicited_response` and
`should_reply_to_message`. Timestamps and probabilities (Python floats) are
modelled as rationals; the one `random.random()` draw is the explicit
parameter `sample`; the per-channel `channel_last_direct_response` entry for
the message's channel, after the lazy purge, is the parameter
`last_direct` (`none` when the channel is absent from the map). The decay
table `Settings.DISCORD_TIME_VS_RESPONSE_CHANCE` and the bonus
`Settings.DISCORD_INTERROBANG_BONUS` are parameters, since their values are
absent from the `settings.py` of this snapshot. -/

/-- Python `s.endswith(t)`. -/
def ends_with (s t : String) : Bool := t.data.isSuffixOf s.data

/-- The bot configuration fields the decision policy reads. -/
structure BotConfig where
  ai_name : String
  wakewords : List String
  ignore_dms : Bool
  user_id : Option Int
deriving Repr

/-- The fields of an inbound `discord.Message` the decision policy reads. -/
structure InMsg where
  author_id : Int
  author_is_bot : Bool
  channel_is_private : Bool
  channel_id : Nat
  content : String
  mentions : List Int
  created_at : Rat
deriving Repr

/-- The `for duration, chance in DISCORD_TIME_VS_RESPONSE_CHANCE` loop of
`should_send_unsolicited_response`: the chance of the first entry whose
duration strictly exceeds the elapsed time, `0.0` when none does. -/
def response_chance_base : List (Rat × Rat) → Rat → Rat
  | [], _ => 0
  | (duration, chance) :: rest, elapsed =>
    if elapsed < duration then chance else response_chance_base rest elapsed

/-- `should_send_unsolicited_response(message)`: `false` when the channel
has no recorded last direct response; otherwise look up the decay chance
for the elapsed time, add the bonus once if the content ends with `?` and
once if it ends with `!`, and respond iff the uniform sample is strictly
below the total. -/
def should_send_unsolicited_response (table : List (Rat × Rat)) (bonus : Rat)
    (last_direct : Option Rat) (m : InMsg) (sample : Rat) : Bool :=
  match last_direct with
  | none => false
  | some t0 =>
    let time_since_last_send := m.created_at - t0
    let response_chance := response_chance_base table time_since_last_send
    let response_chance :=
      if ends_with m.content "?" then response_chance + bonus
      else response_chance
    let response_chance :=
      if ends_with m.content "!" then response_chance + bonus
      else response_chance
    decide (sample < response_chance)

theorem response_chance_base_eq_find (table : List (Rat × Rat)) (e : Rat) :
    response_chance_base table e =
      (((table.find? fun p => decide (e < p.1)).map Prod.snd).getD 0) := by
  induction table with
  | nil => rfl
  | cons p rest ih =>
    rcases p with ⟨d, c⟩
    by_cases h : e < d <;> simp [response_chance_base, List.find?_cons, h, ih]

/-- C5: with a recorded last direct response, the total response
probability is the chance of the first decay entry whose duration strictly
exceeds the elapsed time (0 when none does), plus one bonus for a `?`
suffix and one bonus for a `!` suffix, both checked on every call; the bot
responds iff the sample is strictly below the total, so a total of at least
1 responds for every sample in [0,1); and with no recorded last direct
response the check is `false`. -/
theorem C5_unsolicited_response (table : List (Rat × Rat))
    (bonus t0 sample : Rat) (m : InMsg) (hsample : sample < 1) :
    response_chance_base table (m.created_at - t0) =
      (((table.find? fun p => decide ((m.created_at - t0) < p.1)).map
        Prod.snd).getD 0) ∧
    (should_send_unsolicited_response table bonus (some t0) m sample = true ↔
      sample < response_chance_base table (m.created_at - t0)
        + (if ends_with m.content "?" then bonus else 0)
        + (if ends_with m.content "!" then bonus else 0)) ∧
    (1 ≤ response_chance_base table (m.created_at - t0)
        + (if ends_with m.content "?" then bonus else 0)
        + (if ends_with m.content "!" then bonus else 0) →
      should_send_unsolicited_response table bonus (some t0) m sample = true) ∧
    should_send_unsolicited_response table bonus none m sample = false := by
  have hiff : should_send_unsolicited_response table bonus (some t0) m sample
      = true ↔
      sample < response_chance_base table (m.created_at - t0)
        + (if ends_with m.content "?" then bonus else 0)
        + (if ends_with m.content "!" then bonus else 0) := by
    rw [should_send_unsolicited_response]
    simp only [decide_eq_true_eq]
    by_cases hq : ends_with m.content "?" <;>
      by_cases hb : ends_with m.content "!" <;>
      simp [hq, hb] <;> constructor <;> intro h <;> linarith
  refine ⟨response_chance_base_eq_find table (m.created_at - t0), hiff,
    fun htot => hiff.mpr (lt_of_lt_of_le hsample htot), rfl⟩

theorem C5_unsolicited_response_witness :
    ((1 : Rat)/4 < 1) ∧
    (should_send_unsolicited_response [(60, 1/2)] (1/10) (some 0)
        ⟨5, false, false, 1, "hi?", [], 30⟩ (1/4) = true ↔
      (1 : Rat)/4 < response_chance_base [(60, 1/2)] ((30 : Rat) - 0)
        + (if ends_with "hi?" "?" then (1 : Rat)/10 else 0)
        + (if ends_with "hi?" "!" then (1 : Rat)/10 else 0)) := by
  constructor
  · norm_num
  · exact (C5_unsolicited_response [(60, 1/2)] (1/10) 0 (1/4)
      ⟨5, false, false, 1, "hi?", [], 30⟩ (by norm_num)).2.1

/-! ## ResponseOrchestrator: streamed sentence filters

The sentence loop of `send_response`: a sentence exactly equal to
`"<AI_NAME> says:"` is skipped (`continue`); any other sentence ending in
`" says:"` aborts the stream (`break`); every other sentence is sent to the
channel and then logged in the repetition tracker. The stream is modelled
as a list of sentences paired with the message id the platform assigns to
the sent message; the result is the list of sentences actually sent, in
order, together with the final tracker state. -/

def run_response (ai_name : String) (channel_id : Nat) :
    RepetitionTracker → List (String × Nat) → List String × RepetitionTracker
  | t, [] => ([], t)
  | t, (sentence, mid) :: rest =>
    if sentence = ai_name ++ " says:" then
      run_response ai_name channel_id t rest
    else if ends_with sentence " says:" then ([], t)
    else
      (sentence :: (run_response ai_name channel_id
          (log_message t channel_id ⟨sentence, mid⟩) rest).1,
       (run_response ai_name channel_id
          (log_message t channel_id ⟨sentence, mid⟩) rest).2)

/-- C6: a sentence exactly equal to `"<AI_NAME> says:"` is dropped and the
stream continues; any other sentence ending in `" says:"` is dropped and
the rest of the stream is abandoned — nothing further is sent and the
tracker is left exactly as it was; any other sentence is sent and logged in
the tracker before the stream continues. -/
theorem C6_stream_filters (ai_name : String) (t : RepetitionTracker)
    (channel_id : Nat) (sentence : String) (mid : Nat)
    (rest : List (String × Nat)) :
    run_response ai_name channel_id t ((ai_name ++ " says:", mid) :: rest) =
      run_response ai_name channel_id t rest ∧
    (ends_with sentence " says:" = true → sentence ≠ ai_name ++ " says:" →
      run_response ai_name channel_id t ((sentence, mid) :: rest) = ([], t)) ∧
    (sentence ≠ ai_name ++ " says:" → ends_with sentence " says:" = false →
      run_response ai_name channel_id t ((sentence, mid) :: rest) =
        (sentence :: (run_response ai_name channel_id
            (log_message t channel_id ⟨sentence, mid⟩) rest).1,
         (run_response ai_name channel_id
            (log_message t channel_id ⟨sentence, mid⟩) rest).2)) := by
  refine ⟨by rw [run_response]; simp, fun hsays hne => ?_, fun hne hsays => ?_⟩
  · rw [run_response]
    simp [hne, hsays]
  · rw [run_response]
    simp [hne, hsays]

theorem C6_stream_filters_witness :
    ends_with "Bob says:" " says:" = true ∧
    ("Bob says:" : String) ≠ "Rosie" ++ " says:" ∧
    run_response "Rosie" 0 (fresh_tracker 1)
      [("Bob says:", 7), ("Hi there.", 9)] = ([], fresh_tracker 1) :=
  ⟨by decide, by decide,
   (C6_stream_filters "Rosie" (fresh_tracker 1) 0 "Bob says:" 7
      [("Hi there.", 9)]).2.1 (by decide) (by decide)⟩

/-! ## Wake-word matching

`self.wakeword_patterns = [re.compile(rf"\b{wakeword}\b", re.IGNORECASE)
for wakeword in self.wakewords]`, searched against the raw message content.
For a wakeword made of word characters (letters, digits, underscore — the
configured wakewords such as the default "oobabot"), `\b...\b` matches the
wakeword case-insensitively at a position whose left neighbour (if any) and
right neighbour (if any) are not word characters. `wakeword_match` embeds
exactly that search semantics. -/

/-- A regex word character, the `\w` class: `[a-zA-Z0-9_]`. -/
def is_word_char (c : Char) : Bool := c.isAlphanum || c = '_'

/-- Case-insensitive equality of two character lists, as `re.IGNORECASE`
gives on the ASCII wakewords. -/
def ci_eq_list : List Char → List Char → Bool
  | [], [] => true
  | a :: as2, b :: bs => decide (a.toLower = b.toLower) && ci_eq_list as2 bs
  | _, _ => false

/-- One candidate match position of `re.search(rf"\b{w}\b", IGNORECASE)`:
the wakeword matches case-insensitively at index `i`, the character before
`i` (when any) is not a word character, and the character after the match
(when any) is not a word character. -/
def ww_match_at (w cs : List Char) (i : Nat) : Bool :=
  decide (i + w.length ≤ cs.length) &&
  ci_eq_list w ((cs.drop i).take w.length) &&
  (decide (i = 0) || !is_word_char (cs.getD (i - 1) ' ')) &&
  (decide (i + w.length = cs.length) || !is_word_char (cs.getD (i + w.length) ' '))

/-- `wakeword_pattern.search(message.content)` as a Bool: some position of
the content matches. -/
def wakeword_match (w content : String) : Bool :=
  (List.range (content.data.length + 1)).any (ww_match_at w.data content.data)

/-- The specification-side reading of "the content contains the wake-word
as a case-insensitive whole-word match": the content splits as
`pre ++ mid ++ post` where `mid` equals the wakeword up to case, `pre` is
empty or ends in a non-word character, and `post` is empty or starts with a
non-word character. -/
def WholeWordOccur (w content : String) : Prop :=
  ∃ pre mid post : List Char,
    content.data = pre ++ mid ++ post ∧
    ci_eq_list w.data mid = true ∧
    (pre = [] ∨ ∃ p : Char, pre.getLast? = some p ∧ is_word_char p = false) ∧
    (post = [] ∨ ∃ q : Char, post.head? = some q ∧ is_word_char q = false)

theorem ci_eq_list_length : ∀ (a b : List Char),
    ci_eq_list a b = true → a.length = b.length := by
  intro a
  induction a with
  | nil =>
    intro b h
    cases b with
    | nil => rfl
    | cons y ys => simp [ci_eq_list] at h
  | cons x xs ih =>
    intro b h
    cases b with
    | nil => simp [ci_eq_list] at h
    | cons y ys =>
      rw [ci_eq_list, Bool.and_eq_true] at h
      simp [ih ys h.2]

theorem take_getLast?_getD (cs : List Char) (i : Nat) (h0 : i ≠ 0)
    (hle : i ≤ cs.length) :
    (cs.take i).getLast? = some (cs.getD (i - 1) ' ') := by
  rw [List.getLast?_eq_getElem?, List.length_take, Nat.min_eq_left hle,
    List.getElem?_take, if_pos (by omega), List.getD_eq_getElem?_getD,
    List.getElem?_eq_getElem (by omega : i - 1 < cs.length)]
  rfl

theorem drop_head?_getD (cs : List Char) (j : Nat) (hlt : j < cs.length) :
    (cs.drop j).head? = some (cs.getD j ' ') := by
  rw [List.head?_drop, List.getD_eq_getElem?_getD,
    List.getElem?_eq_getElem hlt]
  rfl

/-- The embedded regex search succeeds exactly on contents with a
case-insensitive whole-word occurrence of the wakeword. -/
theorem wakeword_match_iff_occur (w content : String) :
    wakeword_match w content = true ↔ WholeWordOccur w content := by
  constructor
  · intro h
    rw [wakeword_match, List.any_eq_true] at h
    obtain ⟨i, hi, hmatch⟩ := h
    rw [List.mem_range] at hi
    rw [ww_match_at] at hmatch
    simp only [Bool.and_eq_true, Bool.or_eq_true, decide_eq_true_eq,
      Bool.not_eq_true'] at hmatch
    obtain ⟨⟨⟨h1, h2⟩, h3⟩, h4⟩ := hmatch
    refine ⟨content.data.take i, (content.data.drop i).take w.data.length,
            content.data.drop (i + w.data.length), ?_, h2, ?_, ?_⟩
    · conv_lhs => rw [← List.take_append_drop i content.data]
      rw [List.append_assoc]
      congr 1
      conv_lhs =>
        rw [← List.take_append_drop w.data.length (content.data.drop i)]
      congr 1
      rw [List.drop_drop]
    · by_cases h0 : i = 0
      · left
        rw [h0, List.take_zero]
      · right
        rcases h3 with h3 | h3
        · exact absurd h3 h0
        · exact ⟨content.data.getD (i - 1) ' ',
            take_getLast?_getD content.data i h0 (by omega), h3⟩
    · by_cases hend : i + w.data.length = content.data.length
      · left
        rw [hend, List.drop_length]
      · right
        rcases h4 with h4 | h4
        · exact absurd h4 hend
        · exact ⟨content.data.getD (i + w.data.length) ' ',
            drop_head?_getD content.data _ (by omega), h4⟩
  · rintro ⟨pre, mid, post, hdecomp, hci, hleft, hright⟩
    have hlen : w.data.length = mid.length := ci_eq_list_length _ _ hci
    rw [wakeword_match, List.any_eq_true]
    refine ⟨pre.length, ?_, ?_⟩
    · rw [List.mem_range, hdecomp]
      simp only [List.length_append]
      omega
    · rw [ww_match_at]
      simp only [Bool.and_eq_true, Bool.or_eq_true, decide_eq_true_eq,
        Bool.not_eq_true']
      have hdrop : content.data.drop pre.length = mid ++ post := by
        rw [hdecomp, List.append_assoc, List.drop_left]
      refine ⟨⟨⟨?_, ?_⟩, ?_⟩, ?_⟩
      · rw [hdecomp]
        simp only [List.length_append]
        omega
      · rw [hdrop, hlen, List.take_left]
        exact hci
      · rcases hleft with h | ⟨p, hp, hpw⟩
        · left
          rw [h]
          rfl
        · right
          have hpre : pre ≠ [] := fun hh => by
            rw [hh] at hp
            exact Option.noConfusion hp
          have h1p : 0 < pre.length := List.length_pos.mpr hpre
          have hgl : content.data[pre.length - 1]? = some p := by
            rw [hdecomp, List.append_assoc,
              List.getElem?_append_left (by omega),
              ← List.getLast?_eq_getElem?]
            exact hp
          rw [List.getD_eq_getElem?_getD, hgl]
          exact hpw
      · rcases hright with h | ⟨q, hq, hqw⟩
        · left
          rw [hdecomp, h]
          simp only [List.length_append, List.length_nil]
          omega
        · right
          have hgl : content.data[pre.length + w.data.length]? = some q := by
            rw [hdecomp, hlen, List.append_assoc,
              List.getElem?_append_right (by omega)]
            have hsub : pre.length + mid.length - pre.length = mid.length := by
              omega
            rw [hsub, List.getElem?_append_right (Nat.le_refl mid.length),
              Nat.sub_self, ← List.head?_eq_getElem?]
            exact hq
          rw [List.getD_eq_getElem?_getD, hgl]
          exact hqw

/-- `should_send_direct_response(message)`: reply to private messages
(unless DMs are ignored), to any message matching a wakeword pattern, and
to any message that @-mentions the bot's own user id. -/
def should_send_direct_response (bot : BotConfig) (m : InMsg) : Bool :=
  if m.channel_is_private then !bot.ignore_dms
  else if bot.wakewords.any (fun w => wakeword_match w m.content) then true
  else
    match bot.user_id with
    | some uid => m.mentions.contains uid
    | none => false

/-- `should_reply_to_message(message)`: reject bot authors and self, accept
direct responses, reject messages mentioning others, reject empty bodies,
then fall through to the unsolicited check. The timestamp-recording side
effect of the direct path and the lazy purge are state updates outside this
Boolean; `last_direct` is the post-purge map entry for this channel. -/
def should_reply_to_message (bot : BotConfig) (table : List (Rat × Rat))
    (bonus : Rat) (last_direct : Option Rat) (m : InMsg) (sample : Rat) :
    Bool :=
  if m.author_is_bot then false
  else if (match bot.user_id with
           | some uid => decide (m.author_id = uid)
           | none => false) then false
  else if should_send_direct_response bot m then true
  else if !m.mentions.isEmpty then false
  else if py_strip m.content = "" then false
  else should_send_unsolicited_response table bonus last_direct m sample

/-- C8: for a non-bot, non-self, non-private message, a case-insensitive
whole-word occurrence of a configured wake-word makes
`should_reply_to_message` return true; the compiled pattern search matches
exactly the whole-word occurrences, so a wake-word occurring only inside a
larger word produces no match; and with no whole-word occurrence and no
self-mention the direct-response check returns false. -/
theorem C8_wakeword_reply (bot : BotConfig) (table : List (Rat × Rat))
    (bonus : Rat) (last_direct : Option Rat) (m : InMsg) (sample : Rat)
    (habot : m.author_is_bot = false)
    (hself : ∀ uid, bot.user_id = some uid → m.author_id ≠ uid)
    (hpriv : m.channel_is_private = false) :
    ((∃ w ∈ bot.wakewords, WholeWordOccur w m.content) →
      should_reply_to_message bot table bonus last_direct m sample = true) ∧
    (∀ w : String,
      wakeword_match w m.content = true ↔ WholeWordOccur w m.content) ∧
    ((∀ w ∈ bot.wakewords, ¬ WholeWordOccur w m.content) →
      (∀ uid, bot.user_id = some uid → m.mentions.contains uid = false) →
      should_send_direct_response bot m = false) := by
  have hselfb : (match bot.user_id with
      | some uid => decide (m.author_id = uid)
      | none => false) = false := by
    cases huid : bot.user_id with
    | none => rfl
    | some uid => simp [hself uid huid]
  refine ⟨fun h => ?_, fun w => wakeword_match_iff_occur w m.content,
    fun hno hmen => ?_⟩
  · obtain ⟨w, hwm, hocc⟩ := h
    have hdirect : should_send_direct_response bot m = true := by
      rw [should_send_direct_response, if_neg (by simp [hpriv]), if_pos]
      rw [List.any_eq_true]
      exact ⟨w, hwm, (wakeword_match_iff_occur w m.content).mpr hocc⟩
    rw [should_reply_to_message]
    simp [habot, hselfb, hdirect]
  · have hany : bot.wakewords.any (fun w => wakeword_match w m.content) =
        false := by
      rw [List.any_eq_false]
      intro w hwm hmatch
      exact hno w hwm ((wakeword_match_iff_occur w m.content).mp hmatch)
    rw [should_send_direct_response, if_neg (by simp [hpriv])]
    cases huid : bot.user_id with
    | none => simp [hany, huid]
    | some uid =>
      simp [hany, huid]
      simpa using hmen uid huid

theorem C8_wakeword_reply_witness :
    should_reply_to_message ⟨"ai", ["bot"], false, some 99⟩ [] 0 none
      ⟨5, false, false, 1, "hey bot, hi", [], 0⟩ 0 = true := by
  have h := C8_wakeword_reply ⟨"ai", ["bot"], false, some 99⟩ [] 0 none
    ⟨5, false, false, 1, "hey bot, hi", [], 0⟩ 0 rfl
    (fun uid huid => by
      injection huid with h2
      subst h2
      decide) rfl
  exact h.1 ⟨"bot", by decide,
    "hey ".data, "bot".data, ", hi".data, by decide, by decide,
    Or.inr ⟨' ', by decide, by decide⟩, Or.inr ⟨',', by decide, by decide⟩⟩

end Oobabot
